import Mathlib

/-!
# Fifteen-Twenty finger-guessing game: a shallow embedding

This file embeds the round/session logic of the PyQt finger-guessing game
(`main.py`, `audio_processor.py`, `gesture_recognizer.py`) into Lean and
proves properties of the embedded code.

Conventions:
* wall-clock time is modelled in whole milliseconds (`Nat`); the Python code
  works in float seconds with 1 s / 15 s / 2 s / 3 s constants, which become
  1000 / 15000 / 2000 / 3000 here;
* `random.choice(xs)` is modelled by passing the chosen element as an explicit
  argument; the validity predicate on execution traces requires each such
  argument to be a member of the literal list the code passes to
  `random.choice`;
* Qt's single-threaded event loop is modelled by a small-step semantics on a
  `World` holding the game state, the pending `QTimer.singleShot` callbacks
  and the log of produced round outcomes.  UI label updates are not modelled.
-/

namespace FifteenTwenty

/-! ## `AudioProcessor.extract_number` (audio_processor.py, lines 89-140) -/

/-- The `cn_num` lookup table of `AudioProcessor.extract_number`:
Chinese numerals, ASCII digits and the colloquial `两`. -/
def cn_num (c : Char) : Option Nat :=
  if c = '零' then some 0
  else if c = '一' then some 1
  else if c = '二' then some 2
  else if c = '三' then some 3
  else if c = '四' then some 4
  else if c = '五' then some 5
  else if c = '六' then some 6
  else if c = '七' then some 7
  else if c = '八' then some 8
  else if c = '九' then some 9
  else if c = '十' then some 10
  else if c = '百' then some 100
  else if c = '千' then some 1000
  else if c = '万' then some 10000
  else if c = '0' then some 0
  else if c = '1' then some 1
  else if c = '2' then some 2
  else if c = '3' then some 3
  else if c = '4' then some 4
  else if c = '5' then some 5
  else if c = '6' then some 6
  else if c = '7' then some 7
  else if c = '8' then some 8
  else if c = '9' then some 9
  else if c = '两' then some 2
  else none

/-- The preprocessing step `text.replace('零', '0').replace('两', '二')`;
both patterns are single characters, so the replacement is a character map. -/
def preprocess (text : List Char) : List Char :=
  (text.map fun c => if c = '零' then '0' else c).map
    fun c => if c = '两' then '二' else c

/-- The scanning loop of `extract_number`: for each character that is a key of
`cn_num`, return its value if it lies in `[0, 5]`; otherwise keep scanning
(the Python loop has no `else: return`, so an out-of-range table hit does not
stop the scan). -/
def extract_scan : List Char → Option Nat
  | [] => none
  | c :: rest =>
    match cn_num c with
    | some n => if 0 ≤ n ∧ n ≤ 5 then some n else extract_scan rest
    | none => extract_scan rest

/-- The function `AudioProcessor.extract_number`. -/
def extract_number (text : String) : Option Nat :=
  extract_scan (preprocess text.data)

/-- Modelled from the spec's words for §4.1 (claim C4's reading): the scan
DECIDES on the first character found in the lexical digit table — if that
first table hit is out of range the whole extraction yields "no call". -/
def extract_scan_spec : List Char → Option Nat
  | [] => none
  | c :: rest =>
    match cn_num c with
    | some n => if 0 ≤ n ∧ n ≤ 5 then some n else none
    | none => extract_scan_spec rest

/-- The spec-described extractor (first table hit decides). -/
def extract_number_spec (text : String) : Option Nat :=
  extract_scan_spec (preprocess text.data)

/-! ## Game state (main.py, `GameState` and `GameWindow.init_game`) -/

/-- The `GameState` constants (main.py, lines 14-18). -/
inductive GameSt
  | waiting
  | ready
  | playing
  | finished
deriving DecidableEq, Repr

/-- The three possible round results, i.e. the three outcome branches of
`GameWindow.process_round` (`"胜利！"`, `"失败..."`, `"平局"`). -/
inductive Result
  | playerWin
  | computerWin
  | draw
deriving DecidableEq, Repr

/-- The data of one resolved round, as recorded by `process_round` in the
`record` string and the score counters. -/
structure RoundOutcome where
  playerGesture : String
  playerCall : Int
  computerGesture : String
  computerCall : Int
  total : Int
  result : Result
  roundStart : Nat
  resolveTime : Nat
deriving DecidableEq, Repr

/-- The game-logic fields of `GameWindow` (those touched by `init_game`,
`start_game`, `start_round`, `auto_process_round`, `process_round`,
`on_gesture_detected`, `on_voice_input`, `end_game`).  Fields that the code
initialises but never reads (`current_round`, `player_number`,
`computer_number`) and all UI labels are omitted.  `roundRecords` stores the
outcome data of the formatted `record` strings. -/
structure GState where
  state : GameSt
  scorePlayer : Nat
  scoreComputer : Nat
  scoreDraws : Nat
  validRounds : Nat
  maxRounds : Nat
  playerGesture : Option String
  playerCall : Option Int
  computerGesture : Option String
  computerCall : Option Int
  roundStartTime : Option Nat
  roundProcessed : Bool
  reactionTimes : List Nat
  roundRecords : List RoundOutcome
deriving DecidableEq, Repr

/-- The state set by `GameWindow.init_game` (main.py, lines 197-216). -/
def init_game : GState :=
  { state := .waiting, scorePlayer := 0, scoreComputer := 0, scoreDraws := 0,
    validRounds := 0, maxRounds := 5, playerGesture := none, playerCall := none,
    computerGesture := none, computerCall := none, roundStartTime := none,
    roundProcessed := false, reactionTimes := [], roundRecords := [] }

/-- The callbacks handed to `QTimer.singleShot` by the game logic. -/
inductive Cb
  | autoProcessRound
  | processRound
  | startRound
  | endGame
deriving DecidableEq, Repr

/-- The list `random.choice(["0", "5"])` draws the computer's gesture from
(main.py, line 411). -/
def computer_gesture_choices : List String := ["0", "5"]

/-- The list `random.choice([15, 20])` draws the computer's call from
(main.py, line 412). -/
def computer_call_choices : List Int := [15, 20]

/-- The list `random.choice(["0", "5"])` draws the auto-filled player
gesture from
(main.py, line 391). -/
def auto_fill_gesture_choices : List String := ["0", "5"]

/-- The list `random.choice([15, 20])` draws the auto-filled player call
from
(main.py, line 393). -/
def auto_fill_call_choices : List Int := [15, 20]

/-- The helper `convert_gesture` inside `process_round`: Python `int(g)` on the stored
gesture string, modelled as a decimal parse of the characters (only the
numerals `"0"` and `"5"` are ever stored). -/
def convert_gesture (g : String) : Int :=
  ((g.data.foldl (fun n c => n * 10 + (c.toNat - '0'.toNat)) 0 : Nat) : Int)

/-- The outcome comparison of `process_round` (main.py, lines 421-429). -/
def round_result (pc cc total : Int) : Result :=
  if pc = total ∧ pc ≠ cc then .playerWin
  else if cc = total ∧ pc ≠ cc then .computerWin
  else .draw

/-- The slice `self.round_records = self.round_records[-3:]`
(main.py, line 440). -/
def lastThree (l : List RoundOutcome) : List RoundOutcome :=
  l.drop (l.length - 3)

/-- The resolution body of `process_round` (main.py, lines 408-457): the part
after the stillness check has passed.  `pg`/`pc` are the latched player
inputs (`self.player_gesture`/`self.player_call`) and `cg`/`cc` the values of
the two `random.choice` draws for the computer. -/
def resolve (now : Nat) (cg : String) (cc : Int) (pg : String) (pc : Int)
    (s : GState) : GState × List (Nat × Cb) × Option RoundOutcome :=
  let rs := s.roundStartTime.getD 0
  let total := convert_gesture pg + convert_gesture cg
  let result := round_result pc cc total
  let s₁ := { s with
    roundProcessed := true,
    computerGesture := some cg,
    computerCall := some cc,
    scorePlayer := s.scorePlayer + (if result = Result.playerWin then 1 else 0),
    scoreComputer := s.scoreComputer + (if result = Result.computerWin then 1 else 0),
    scoreDraws := s.scoreDraws + (if result = Result.draw then 1 else 0) }
  -- `if self.round_start_time:` — Python truthiness (False for None and 0.0)
  let s₂ := if s.roundStartTime.getD 0 ≠ 0 then
      { s₁ with reactionTimes := s₁.reactionTimes ++ [now - rs] } else s₁
  let s₃ := if result ≠ Result.draw then
      { s₂ with validRounds := s₂.validRounds + 1 } else s₂
  let o : RoundOutcome :=
    { playerGesture := pg, playerCall := pc, computerGesture := cg,
      computerCall := cc, total := total, result := result,
      roundStart := rs, resolveTime := now }
  let s₄ := { s₃ with roundRecords := lastThree (s₃.roundRecords ++ [o]) }
  -- `QTimer.singleShot(2000, end_game if valid_rounds >= max_rounds else start_round)`
  (s₄,
   [(now + 2000,
     if s₄.validRounds ≥ s₄.maxRounds then Cb.endGame else Cb.startRound)],
   some o)

/-- The function `GameWindow.process_round` (main.py, lines 396-457), with the computer's
two `random.choice` draws passed in as `cg` and `cc`.  Returns the new state,
the list of newly armed `QTimer.singleShot` callbacks `(fire time, callback)`,
and the produced outcome, if any.  The code reads `self.round_start_time`
unconditionally when computing `elapsed`; it is `None` only before the first
`start_round`, modelled here by `getD 0`. -/
def process_round (now : Nat) (cg : String) (cc : Int) (s : GState) :
    GState × List (Nat × Cb) × Option RoundOutcome :=
  match s.playerGesture, s.playerCall with
  | some pg, some pc =>
    let elapsed := now - s.roundStartTime.getD 0
    if elapsed < 1000 then
      -- 1-second stillness: re-arm `process_round` for the remaining time
      (s, [(now + (1000 - elapsed), Cb.processRound)], none)
    else
      resolve now cg cc pg pc s
  | _, _ => (s, [], none)

/-- The function `GameWindow.start_round` (main.py, lines 371-384): reset the per-round
fields, stamp the round start, arm the 15-second timeout. -/
def start_round (now : Nat) (s : GState) : GState × List (Nat × Cb) :=
  ({ s with roundProcessed := false, playerGesture := none, playerCall := none,
            computerGesture := none, computerCall := none,
            roundStartTime := some now },
   [(now + 15000, Cb.autoProcessRound)])

/-- The function `GameWindow.start_game` (main.py, lines 352-369): reset the session
counters, enter `PLAYING`, schedule the first round after the 3-second
ready delay. -/
def start_game (now : Nat) (s : GState) : GState × List (Nat × Cb) :=
  ({ s with state := .playing, scorePlayer := 0, scoreComputer := 0,
            scoreDraws := 0, validRounds := 0, reactionTimes := [],
            roundRecords := [] },
   [(now + 3000, Cb.startRound)])

/-- The function `GameWindow.end_game` (main.py, lines 486-503): enter `FINISHED` (the
recognizer/audio teardown and the report dialog are not game-state fields). -/
def end_game (s : GState) : GState :=
  { s with state := .finished }

/-- The function `GameWindow.exit_game` (main.py, lines 505-507): only calls
`self.close()`; no game-state field is mutated. -/
def exit_game (s : GState) : GState :=
  s

/-- The function `GameWindow.auto_process_round` (main.py, lines 386-394),
with the two
`random.choice` draws for the missing player inputs passed as `pgC`/`pcC` and
the computer draws of the nested `process_round` call as `cg`/`cc`. -/
def auto_process_round (now : Nat) (pgC : String) (pcC : Int)
    (cg : String) (cc : Int) (s : GState) :
    GState × List (Nat × Cb) × Option RoundOutcome :=
  if s.state ≠ GameSt.playing ∨ s.roundProcessed then (s, [], none)
  else
    let s₁ := if s.playerGesture = none then { s with playerGesture := some pgC } else s
    let s₂ := if s₁.playerCall = none then { s₁ with playerCall := some pcC } else s₁
    process_round now cg cc s₂

/-- The `mapping = {"Fist": "0", "Palm": "5"}` lookup of
`on_gesture_detected` (main.py, line 528). -/
def gesture_mapping (g : String) : Option String :=
  if g = "Fist" then some "0" else if g = "Palm" then some "5" else none

/-- The handler `GameWindow.on_gesture_detected` (main.py, lines 525-540). -/
def on_gesture_detected (now : Nat) (gesture : String) (cg : String) (cc : Int)
    (s : GState) : GState × List (Nat × Cb) × Option RoundOutcome :=
  if s.state = GameSt.playing then
    match gesture_mapping gesture with
    | none => (s, [], none)    -- 忽略不在要求范围内的手势
    | some ng =>
      let s₁ := { s with playerGesture := some ng }
      if s₁.playerCall ≠ none then process_round now cg cc s₁
      else (s₁, [], none)
  else (s, [], none)

/-- Python `a in b` on strings, as infix lists of characters. -/
def strContains (hay pat : String) : Bool :=
  decide (pat.data <:+: hay.data)

/-- The handler `GameWindow.on_voice_input` (main.py, lines 542-557). -/
def on_voice_input (now : Nat) (text : String) (cg : String) (cc : Int)
    (s : GState) : GState × List (Nat × Cb) × Option RoundOutcome :=
  if s.state = GameSt.waiting ∧
      (strContains text "开始" ∨ strContains text "15 15") then
    let (s₁, ts) := start_game now s
    (s₁, ts, none)
  else if strContains text "退出游戏" then
    (exit_game s, [], none)
  else
    match extract_number text with
    | some n =>
      let s₁ := { s with playerCall := some (n : Int) }
      if s₁.playerGesture ≠ none then process_round now cg cc s₁
      else (s₁, [], none)
    | none => (s, [], none)

/-! ## `GestureRecognizer.process_frame` (gesture_recognizer.py)

Confidence scores are floats in the source; they are modelled in thousandths
(`Nat`), so the `0.5` threshold becomes `500`. -/

/-- The constant `GESTURE_CONFIDENCE_THRESHOLD = 0.5`
(gesture_recognizer.py, line 14). -/
def GESTURE_CONFIDENCE_THRESHOLD : Nat := 500

/-- The table `GESTURE_NAME_MAPPING` (gesture_recognizer.py, lines 17-20). -/
def GESTURE_NAME_MAPPING (c : String) : Option String :=
  if c = "Closed_Fist" then some "0"
  else if c = "Open_Palm" then some "5"
  else none

/-- The `detected_numbers` accumulation of `process_frame`
(gesture_recognizer.py, lines 66-91): one `(category_name, score)` pair per
recognised hand; low-confidence and unmapped categories are skipped, the
mapped gesture numeral is parsed with `int(...)` and appended. -/
def detected_numbers (hands : List (String × Nat)) : List Int :=
  hands.foldr
    (fun h acc =>
      if h.2 ≥ GESTURE_CONFIDENCE_THRESHOLD then
        match GESTURE_NAME_MAPPING h.1 with
        | some g => convert_gesture g :: acc
        | none => acc
      else acc) []

/-- The gesture value `process_frame` returns to the camera thread
(gesture_recognizer.py, line 159):
`str(sum(detected_numbers)) if detected_numbers else None`. -/
def process_frame_gesture (hands : List (String × Nat)) : Option String :=
  if detected_numbers hands = [] then none
  else some (toString (detected_numbers hands).sum)

/-! ## Event-loop semantics

Qt delivers slot invocations (gesture events, voice events, button clicks) and
`QTimer.singleShot` callbacks one at a time on the GUI thread.  A `World`
holds the game state, the pending timers and the log of produced outcomes; a
`Step` is one slot invocation, carrying its wall-clock time and the values the
`random.choice` calls made during it would return. -/

structure World where
  now : Nat
  gs : GState
  timers : List (Nat × Cb)
  outcomes : List RoundOutcome
deriving DecidableEq, Repr

/-- One slot invocation of the event loop.  `fireTimer i` fires the `i`-th
pending timer; the trailing arguments of each constructor are the values
returned by the `random.choice` calls reachable from the slot
(`pgC`/`pcC`: auto-filled player gesture/call; `cg`/`cc`: computer
gesture/call). -/
inductive Step
  | startBtn (t : Nat)
  | gestureEv (t : Nat) (gesture : String) (cg : String) (cc : Int)
  | voiceEv (t : Nat) (text : String) (cg : String) (cc : Int)
  | fireTimer (i : Nat) (t : Nat) (pgC : String) (pcC : Int) (cg : String) (cc : Int)
deriving DecidableEq, Repr

/-- Execute one slot invocation.  A fired timer is removed from the pending
list; callbacks armed during the slot are appended. -/
def stepWorld (w : World) (e : Step) : World :=
  match e with
  | .startBtn t =>
    let (gs, ts) := start_game t w.gs
    { now := t, gs := gs, timers := w.timers ++ ts, outcomes := w.outcomes }
  | .gestureEv t g cg cc =>
    let (gs, ts, oo) := on_gesture_detected t g cg cc w.gs
    { now := t, gs := gs, timers := w.timers ++ ts,
      outcomes := w.outcomes ++ oo.toList }
  | .voiceEv t text cg cc =>
    let (gs, ts, oo) := on_voice_input t text cg cc w.gs
    { now := t, gs := gs, timers := w.timers ++ ts,
      outcomes := w.outcomes ++ oo.toList }
  | .fireTimer i t pgC pcC cg cc =>
    match w.timers[i]? with
    | none => { w with now := t }
    | some (_, cb) =>
      let timers := w.timers.eraseIdx i
      match cb with
      | .startRound =>
        let (gs, ts) := start_round t w.gs
        { now := t, gs := gs, timers := timers ++ ts, outcomes := w.outcomes }
      | .endGame =>
        { now := t, gs := end_game w.gs, timers := timers, outcomes := w.outcomes }
      | .autoProcessRound =>
        let (gs, ts, oo) := auto_process_round t pgC pcC cg cc w.gs
        { now := t, gs := gs, timers := timers ++ ts,
          outcomes := w.outcomes ++ oo.toList }
      | .processRound =>
        let (gs, ts, oo) := process_round t cg cc w.gs
        { now := t, gs := gs, timers := timers ++ ts,
          outcomes := w.outcomes ++ oo.toList }

/-- Run a list of slot invocations. -/
def runTrace (w : World) (tr : List Step) : World :=
  tr.foldl stepWorld w

/-- The world right after `GameWindow.__init__` ran `init_game`. -/
def initWorld : World :=
  { now := 0, gs := init_game, timers := [], outcomes := [] }

/-- The computer draws of a slot come from the lists passed to
`random.choice` in `process_round`. -/
def validComp (cg : String) (cc : Int) : Bool :=
  decide (cg ∈ computer_gesture_choices) && decide (cc ∈ computer_call_choices)

/-- A slot invocation is admissible in world `w`: time is monotone, a fired
timer exists and has come due, and every `random.choice` value is a member of
the list the code draws from. -/
def validStep (w : World) : Step → Bool
  | .startBtn t => decide (w.now ≤ t)
  | .gestureEv t _ cg cc => decide (w.now ≤ t) && validComp cg cc
  | .voiceEv t _ cg cc => decide (w.now ≤ t) && validComp cg cc
  | .fireTimer i t pgC pcC cg cc =>
    decide (w.now ≤ t) &&
    (match w.timers[i]? with
     | some (ft, _) => decide (ft ≤ t)
     | none => false) &&
    decide (pgC ∈ auto_fill_gesture_choices) &&
    decide (pcC ∈ auto_fill_call_choices) &&
    validComp cg cc

/-- A trace is admissible from `w` if each step is admissible in the world
the previous steps produced. -/
def validTrace (w : World) : List Step → Bool
  | [] => true
  | e :: es => validStep w e && validTrace (stepWorld w e) es

/-! ## Concrete scenarios used in the theorems -/

/-- Start button at t = 0; the ready timer opens a round at t = 3000; a
`Fist` gesture at t = 3500 and the utterance `三` at t = 4200 resolve the
round; a second gesture (`Palm`) arrives at t = 4800, before the next round
opens at t = 6200. -/
def tr_c1 : List Step :=
  [Step.startBtn 0,
   Step.fireTimer 0 3000 "0" 15 "0" 15,
   Step.gestureEv 3500 "Fist" "0" 15,
   Step.voiceEv 4200 "三" "0" 15,
   Step.gestureEv 4800 "Palm" "0" 15]

/-- Round 1 opens at t = 3000 (arming a 15-second timeout due at t = 18000)
and resolves at t = 4500; round 2 opens at t = 6500 (arming its own timeout,
due at t = 21500).  The trace stops right before round 1's timer fires. -/
def tr_c7_pre : List Step :=
  [Step.startBtn 0,
   Step.fireTimer 0 3000 "0" 15 "0" 15,
   Step.gestureEv 3500 "Fist" "0" 15,
   Step.voiceEv 4500 "三" "0" 15,
   Step.fireTimer 1 6500 "0" 15 "0" 15]

/-- The trace `tr_c7_pre` followed by the firing of round 1's stale
15-second timer
(armed at t = 3000, due at t = 18000) while round 2 awaits input. -/
def tr_c7 : List Step :=
  tr_c7_pre ++ [Step.fireTimer 0 18000 "0" 15 "5" 20]

/-- A round opens at t = 3000; a `Fist` gesture (value "0") is accepted at
t = 3200 and a `Palm` gesture (value "5") at t = 3400, with no voice call,
so no resolution happens in between. -/
def tr_c6 : List Step :=
  [Step.startBtn 0,
   Step.fireTimer 0 3000 "0" 15 "0" 15,
   Step.gestureEv 3200 "Fist" "0" 15,
   Step.gestureEv 3400 "Palm" "0" 15]

/-- A round opens at t = 3000 and neither input arrives; the 15-second
timeout fires at t = 18000 and auto-fills both player inputs. -/
def tr_c3 : List Step :=
  [Step.startBtn 0,
   Step.fireTimer 0 3000 "0" 15 "0" 15,
   Step.fireTimer 0 18000 "5" 20 "0" 15]

/-- Same shape as `tr_c3`: a full auto-filled round. -/
def tr_c9 : List Step :=
  [Step.startBtn 0,
   Step.fireTimer 0 3000 "0" 15 "0" 15,
   Step.fireTimer 0 18000 "0" 15 "5" 20]

/-- A mid-round state: round open since t = 2000, player gesture `"5"` and
player call `5` latched. -/
def s_c2 : GState :=
  { init_game with state := GameSt.playing, playerGesture := some "5",
                   playerCall := some 5, roundStartTime := some 2000 }

/-- A mid-round state: round open since t = 3000, both inputs present. -/
def s_c3e : GState :=
  { init_game with state := GameSt.playing, playerGesture := some "0",
                   playerCall := some 3, roundStartTime := some 3000 }

/-- A mid-round state whose gesture channel already holds `"0"`. -/
def s_c6 : GState :=
  { init_game with state := GameSt.playing, playerGesture := some "0",
                   roundStartTime := some 3000 }

/-- A mid-round state whose call channel already holds `3`. -/
def s_c6v : GState :=
  { init_game with state := GameSt.playing, playerCall := some 3,
                   roundStartTime := some 3000 }

/-- A mid-round state one non-draw round away from the session target. -/
def s_c8 : GState :=
  { init_game with state := GameSt.playing, playerGesture := some "5",
                   playerCall := some 10, validRounds := 4,
                   roundStartTime := some 2000 }

/-- The outcome `resolve` emits. -/
def resolve_record (now : Nat) (cg : String) (cc : Int) (pg : String)
    (pc : Int) (s : GState) : RoundOutcome :=
  { playerGesture := pg, playerCall := pc, computerGesture := cg,
    computerCall := cc, total := convert_gesture pg + convert_gesture cg,
    result := round_result pc cc (convert_gesture pg + convert_gesture cg),
    roundStart := s.roundStartTime.getD 0, resolveTime := now }

/-- The player's stored gesture string is absent or one of `"0"`, `"5"`. -/
def PgOK : Option String → Prop
  | none => True
  | some g => g = "0" ∨ g = "5"

/-- The "computer never scores" invariant of a world. -/
def Inv9 (w : World) : Prop :=
  w.gs.scoreComputer = 0 ∧ PgOK w.gs.playerGesture ∧
    ∀ o ∈ w.outcomes, o.result ≠ Result.computerWin

/-! ## Supporting lemmas -/

/-- Any value returned by `extract_scan` lies in `[0, 5]`. -/
theorem extract_scan_le_five : ∀ cs n, extract_scan cs = some n → n ≤ 5 := by
  intro cs
  induction cs with
  | nil => intro n h; simp [extract_scan] at h
  | cons c rest ih =>
    intro n h
    simp only [extract_scan] at h
    cases hc : cn_num c with
    | none => rw [hc] at h; exact ih n h
    | some m =>
      rw [hc] at h
      by_cases hm : m ≤ 5
      · simp [hm] at h; omega
      · simp [hm] at h; exact ih n h

theorem round_result_cases (pc cc total : Int) :
    (round_result pc cc total = .playerWin ↔ (pc = total ∧ pc ≠ cc)) ∧
    (round_result pc cc total = .computerWin ↔ (cc = total ∧ pc ≠ cc)) ∧
    (round_result pc cc total = .draw ↔
      (¬(pc = total ∧ pc ≠ cc) ∧ ¬(cc = total ∧ pc ≠ cc))) := by
  by_cases hpt : pc = total <;> by_cases hct : cc = total <;>
    by_cases hpc : pc = cc <;> simp_all [round_result]

theorem resolve_outcome (now : Nat) (cg : String) (cc : Int) (pg : String)
    (pc : Int) (s : GState) :
    (resolve now cg cc pg pc s).2.2 = some (resolve_record now cg cc pg pc s) := by
  rfl

theorem resolve_playerGesture (now : Nat) (cg : String) (cc : Int)
    (pg : String) (pc : Int) (s : GState) :
    (resolve now cg cc pg pc s).1.playerGesture = s.playerGesture := by
  simp only [resolve]
  split <;> split <;> rfl

theorem resolve_playerCall (now : Nat) (cg : String) (cc : Int)
    (pg : String) (pc : Int) (s : GState) :
    (resolve now cg cc pg pc s).1.playerCall = s.playerCall := by
  simp only [resolve]
  split <;> split <;> rfl

theorem resolve_scoreComputer (now : Nat) (cg : String) (cc : Int)
    (pg : String) (pc : Int) (s : GState) :
    (resolve now cg cc pg pc s).1.scoreComputer =
      s.scoreComputer +
        (if round_result pc cc (convert_gesture pg + convert_gesture cg) =
            Result.computerWin then 1 else 0) := by
  simp only [resolve]
  split <;> split <;> rfl

theorem resolve_validRounds (now : Nat) (cg : String) (cc : Int)
    (pg : String) (pc : Int) (s : GState) :
    (resolve now cg cc pg pc s).1.validRounds =
      s.validRounds +
        (if round_result pc cc (convert_gesture pg + convert_gesture cg) =
            Result.draw then 0 else 1) := by
  simp only [resolve]
  repeat' split
  all_goals simp_all

theorem resolve_maxRounds (now : Nat) (cg : String) (cc : Int)
    (pg : String) (pc : Int) (s : GState) :
    (resolve now cg cc pg pc s).1.maxRounds = s.maxRounds := by
  simp only [resolve]
  split <;> split <;> rfl

theorem resolve_timers (now : Nat) (cg : String) (cc : Int)
    (pg : String) (pc : Int) (s : GState) :
    (resolve now cg cc pg pc s).2.1 =
      [(now + 2000,
        if (resolve now cg cc pg pc s).1.validRounds ≥
            (resolve now cg cc pg pc s).1.maxRounds
        then Cb.endGame else Cb.startRound)] := by
  rfl

/-- The function `process_round` returns unchanged when an input is
missing. -/
theorem process_round_missing {now : Nat} {cg : String} {cc : Int} {s : GState}
    (h : s.playerGesture = none ∨ s.playerCall = none) :
    process_round now cg cc s = (s, [], none) := by
  unfold process_round
  rcases h with h | h
  · rw [h]
  · cases hpg : s.playerGesture <;> rw [h]

/-- When invoked before the stillness window elapses, `process_round`
re-arms
itself and changes nothing. -/
theorem process_round_defer {now : Nat} {cg : String} {cc : Int} {s : GState}
    {pg : String} {pc : Int}
    (hpg : s.playerGesture = some pg) (hpc : s.playerCall = some pc)
    (hst : now - s.roundStartTime.getD 0 < 1000) :
    process_round now cg cc s =
      (s, [(now + (1000 - (now - s.roundStartTime.getD 0)), Cb.processRound)],
        none) := by
  unfold process_round
  rw [hpg, hpc]
  exact if_pos hst

/-- With both inputs present and the stillness window elapsed,
`process_round` runs `resolve`. -/
theorem process_round_eq_resolve {now : Nat} {cg : String} {cc : Int}
    {s : GState} {pg : String} {pc : Int}
    (hpg : s.playerGesture = some pg) (hpc : s.playerCall = some pc)
    (hst : ¬ now - s.roundStartTime.getD 0 < 1000) :
    process_round now cg cc s = resolve now cg cc pg pc s := by
  unfold process_round
  rw [hpg, hpc]
  exact if_neg hst

/-- An outcome emitted by `process_round` comes from `resolve`, invoked with
the latched inputs after the stillness window. -/
theorem process_round_some {now : Nat} {cg : String} {cc : Int}
    {s s' : GState} {ts : List (Nat × Cb)} {o : RoundOutcome}
    (h : process_round now cg cc s = (s', ts, some o)) :
    ∃ pg pc, s.playerGesture = some pg ∧ s.playerCall = some pc ∧
      ¬ now - s.roundStartTime.getD 0 < 1000 ∧
      resolve now cg cc pg pc s = (s', ts, some o) := by
  cases hpg : s.playerGesture with
  | none => rw [process_round_missing (Or.inl hpg)] at h; simp at h
  | some pg =>
    cases hpc : s.playerCall with
    | none => rw [process_round_missing (Or.inr hpc)] at h; simp at h
    | some pc =>
      by_cases hst : now - s.roundStartTime.getD 0 < 1000
      · rw [process_round_defer hpg hpc hst] at h; simp at h
      · exact ⟨pg, pc, rfl, rfl,
          hst, (process_round_eq_resolve hpg hpc hst).symm.trans h⟩

/-- If `process_round` does not emit an outcome, the game state is
unchanged (the attempt was dropped for missing input or deferred by the
stillness rule). -/
theorem process_round_none {now : Nat} {cg : String} {cc : Int} {s s' : GState}
    {ts : List (Nat × Cb)}
    (h : process_round now cg cc s = (s', ts, none)) : s' = s := by
  cases hpg : s.playerGesture with
  | none => rw [process_round_missing (Or.inl hpg)] at h; injection h with h1 _; exact h1.symm
  | some pg =>
    cases hpc : s.playerCall with
    | none => rw [process_round_missing (Or.inr hpc)] at h; injection h with h1 _; exact h1.symm
    | some pc =>
      by_cases hst : now - s.roundStartTime.getD 0 < 1000
      · rw [process_round_defer hpg hpc hst] at h; injection h with h1 _; exact h1.symm
      · rw [process_round_eq_resolve hpg hpc hst] at h
        have h3 := congrArg (fun p => p.2.2) h
        simp [resolve_outcome] at h3

/-- Any outcome emitted by `process_round` is stamped with the invocation
time and respects the stillness bound. -/
theorem process_round_some_still {now : Nat} {cg : String} {cc : Int}
    {s s' : GState} {ts : List (Nat × Cb)} {o : RoundOutcome}
    (h : process_round now cg cc s = (s', ts, some o)) :
    o.resolveTime = now ∧ o.roundStart + 1000 ≤ o.resolveTime := by
  obtain ⟨pg, pc, hpg, hpc, hst, hres⟩ := process_round_some h
  have h3 := congrArg (fun p => p.2.2) hres
  simp only [resolve_outcome, Option.some.injEq] at h3
  subst h3
  refine ⟨rfl, ?_⟩
  simp only [resolve_record]
  omega

theorem process_round_playerGesture (now : Nat) (cg : String) (cc : Int)
    (s : GState) :
    (process_round now cg cc s).1.playerGesture = s.playerGesture := by
  cases hpg : s.playerGesture with
  | none => rw [process_round_missing (Or.inl hpg)]; exact hpg
  | some pg =>
    cases hpc : s.playerCall with
    | none => rw [process_round_missing (Or.inr hpc)]; exact hpg
    | some pc =>
      by_cases hst : now - s.roundStartTime.getD 0 < 1000
      · rw [process_round_defer hpg hpc hst]; exact hpg
      · rw [process_round_eq_resolve hpg hpc hst, resolve_playerGesture]
        exact hpg

theorem process_round_playerCall (now : Nat) (cg : String) (cc : Int)
    (s : GState) :
    (process_round now cg cc s).1.playerCall = s.playerCall := by
  cases hpg : s.playerGesture with
  | none => rw [process_round_missing (Or.inl hpg)]
  | some pg =>
    cases hpc : s.playerCall with
    | none => rw [process_round_missing (Or.inr hpc)]; exact hpc
    | some pc =>
      by_cases hst : now - s.roundStartTime.getD 0 < 1000
      · rw [process_round_defer hpg hpc hst]; exact hpc
      · rw [process_round_eq_resolve hpg hpc hst, resolve_playerCall]
        exact hpc

/-! ### Outcome provenance: every emitted outcome comes from `process_round` -/

theorem on_gesture_some {now : Nat} {g cg : String} {cc : Int} {s s' : GState}
    {ts : List (Nat × Cb)} {o : RoundOutcome}
    (h : on_gesture_detected now g cg cc s = (s', ts, some o)) :
    ∃ s₁, process_round now cg cc s₁ = (s', ts, some o) := by
  unfold on_gesture_detected at h
  split at h
  · cases hm : gesture_mapping g with
    | none => rw [hm] at h; simp at h
    | some ng =>
      rw [hm] at h
      dsimp only at h
      split at h
      · exact ⟨_, h⟩
      · simp at h
  · simp at h

theorem on_voice_some {now : Nat} {text cg : String} {cc : Int} {s s' : GState}
    {ts : List (Nat × Cb)} {o : RoundOutcome}
    (h : on_voice_input now text cg cc s = (s', ts, some o)) :
    ∃ s₁, process_round now cg cc s₁ = (s', ts, some o) := by
  unfold on_voice_input at h
  split at h
  · simp [start_game] at h
  · split at h
    · simp at h
    · cases hx : extract_number text with
      | none => rw [hx] at h; simp at h
      | some n =>
        rw [hx] at h
        dsimp only at h
        split at h
        · exact ⟨_, h⟩
        · simp at h

theorem auto_some {now : Nat} {pgC cg : String} {pcC cc : Int} {s s' : GState}
    {ts : List (Nat × Cb)} {o : RoundOutcome}
    (h : auto_process_round now pgC pcC cg cc s = (s', ts, some o)) :
    ∃ s₁, process_round now cg cc s₁ = (s', ts, some o) := by
  unfold auto_process_round at h
  split at h
  · simp at h
  · exact ⟨_, h⟩

/-- Every outcome present after a step was either already there or was just
emitted by an invocation of `process_round`. -/
theorem stepWorld_outcome_mem {w : World} {e : Step} {o : RoundOutcome}
    (h : o ∈ (stepWorld w e).outcomes) :
    o ∈ w.outcomes ∨
      ∃ now cg cc s₁ s' ts, process_round now cg cc s₁ = (s', ts, some o) := by
  cases e with
  | startBtn t =>
    left
    simpa [stepWorld, start_game] using h
  | gestureEv t g cg cc =>
    rcases hgd : on_gesture_detected t g cg cc w.gs with ⟨gs, ts2, oo⟩
    simp only [stepWorld, hgd, List.mem_append] at h
    rcases h with h | h
    · exact Or.inl h
    · cases oo with
      | none => simp at h
      | some o' =>
        simp at h
        subst h
        exact Or.inr ⟨t, cg, cc, _, _, _, (on_gesture_some hgd).choose_spec⟩
  | voiceEv t text cg cc =>
    rcases hvd : on_voice_input t text cg cc w.gs with ⟨gs, ts2, oo⟩
    simp only [stepWorld, hvd, List.mem_append] at h
    rcases h with h | h
    · exact Or.inl h
    · cases oo with
      | none => simp at h
      | some o' =>
        simp at h
        subst h
        exact Or.inr ⟨t, cg, cc, _, _, _, (on_voice_some hvd).choose_spec⟩
  | fireTimer i t pgC pcC cg cc =>
    cases ht : w.timers[i]? with
    | none =>
      left
      simpa [stepWorld, ht] using h
    | some ftcb =>
      obtain ⟨ft, cb⟩ := ftcb
      cases cb with
      | startRound => left; simpa [stepWorld, ht, start_round] using h
      | endGame => left; simpa [stepWorld, ht, end_game] using h
      | autoProcessRound =>
        rcases had : auto_process_round t pgC pcC cg cc w.gs with ⟨gs, ts2, oo⟩
        simp only [stepWorld, ht, had, List.mem_append] at h
        rcases h with h | h
        · exact Or.inl h
        · cases oo with
          | none => simp at h
          | some o' =>
            simp at h
            subst h
            exact Or.inr ⟨t, cg, cc, _, _, _, (auto_some had).choose_spec⟩
      | processRound =>
        rcases hpd : process_round t cg cc w.gs with ⟨gs, ts2, oo⟩
        simp only [stepWorld, ht, hpd, List.mem_append] at h
        rcases h with h | h
        · exact Or.inl h
        · cases oo with
          | none => simp at h
          | some o' =>
            simp at h
            subst h
            exact Or.inr ⟨t, cg, cc, _, _, _, hpd⟩

/-- The stillness bound holds for every outcome ever logged. -/
theorem runTrace_still : ∀ (tr : List Step) (w : World),
    (∀ o ∈ w.outcomes, o.roundStart + 1000 ≤ o.resolveTime) →
    ∀ o ∈ (runTrace w tr).outcomes, o.roundStart + 1000 ≤ o.resolveTime := by
  intro tr
  induction tr with
  | nil => intro w hw; exact hw
  | cons e es ih =>
    intro w hw
    refine ih (stepWorld w e) ?_
    intro o ho
    rcases stepWorld_outcome_mem ho with h | ⟨now, cg, cc, s₁, s', ts, hpr⟩
    · exact hw o h
    · exact (process_round_some_still hpr).2

/-! ### The computer can never win -/

theorem gesture_mapping_ok {g ng : String} (h : gesture_mapping g = some ng) :
    ng = "0" ∨ ng = "5" := by
  unfold gesture_mapping at h
  split_ifs at h <;> simp_all

theorem round_result_ne_computerWin {pc cc total : Int} (h : cc ≠ total) :
    round_result pc cc total ≠ Result.computerWin := by
  unfold round_result
  split_ifs with h1 h2
  · exact fun hx => Result.noConfusion hx
  · exact absurd h2.1 h
  · exact fun hx => Result.noConfusion hx

/-- A call drawn from `{15, 20}` can never equal a total of two gestures
drawn from `{"0", "5"}`. -/
theorem cc_ne_total {pg cg : String} {cc : Int}
    (hpg : pg = "0" ∨ pg = "5") (hcg : cg = "0" ∨ cg = "5")
    (hcc : cc = 15 ∨ cc = 20) :
    cc ≠ convert_gesture pg + convert_gesture cg := by
  rcases hpg with rfl | rfl <;> rcases hcg with rfl | rfl <;>
    rcases hcc with rfl | rfl <;> decide

theorem process_round_inv {now : Nat} {cg : String} {cc : Int} {s : GState}
    (hcg : cg = "0" ∨ cg = "5") (hcc : cc = 15 ∨ cc = 20)
    (hsc : s.scoreComputer = 0) (hpgok : PgOK s.playerGesture) :
    (process_round now cg cc s).1.scoreComputer = 0 ∧
    PgOK (process_round now cg cc s).1.playerGesture ∧
    ∀ o ∈ (process_round now cg cc s).2.2.toList,
      o.result ≠ Result.computerWin := by
  rcases hpr : process_round now cg cc s with ⟨s', ts, oo⟩
  cases oo with
  | none =>
    have hss := process_round_none hpr
    subst hss
    exact ⟨hsc, hpgok, by simp⟩
  | some o =>
    obtain ⟨pg, pc, hpg, hpc, hst, hres⟩ := process_round_some hpr
    have hpgok' : pg = "0" ∨ pg = "5" := by rw [hpg] at hpgok; exact hpgok
    have hne : round_result pc cc (convert_gesture pg + convert_gesture cg) ≠
        Result.computerWin :=
      round_result_ne_computerWin (cc_ne_total hpgok' hcg hcc)
    have h1 : (resolve now cg cc pg pc s).1 = s' := by rw [hres]
    refine ⟨?_, ?_, ?_⟩
    · rw [← h1, resolve_scoreComputer, hsc, if_neg hne]
    · rw [← h1, resolve_playerGesture, hpg]
      exact hpgok'
    · intro o' ho'
      simp only [Option.toList_some, List.mem_singleton] at ho'
      subst ho'
      have h3 := congrArg (fun p => p.2.2) hres
      simp only [resolve_outcome, Option.some.injEq] at h3
      rw [← h3]
      simpa [resolve_record] using hne

theorem on_gesture_inv {now : Nat} {g cg : String} {cc : Int} {s : GState}
    (hcg : cg = "0" ∨ cg = "5") (hcc : cc = 15 ∨ cc = 20)
    (hsc : s.scoreComputer = 0) (hpgok : PgOK s.playerGesture) :
    (on_gesture_detected now g cg cc s).1.scoreComputer = 0 ∧
    PgOK (on_gesture_detected now g cg cc s).1.playerGesture ∧
    ∀ o ∈ (on_gesture_detected now g cg cc s).2.2.toList,
      o.result ≠ Result.computerWin := by
  unfold on_gesture_detected
  split
  · cases hm : gesture_mapping g with
    | none => exact ⟨hsc, hpgok, by simp⟩
    | some ng =>
      dsimp only
      split
      · exact process_round_inv hcg hcc hsc (gesture_mapping_ok hm)
      · exact ⟨hsc, gesture_mapping_ok hm, by simp⟩
  · exact ⟨hsc, hpgok, by simp⟩

theorem on_voice_inv {now : Nat} {text cg : String} {cc : Int} {s : GState}
    (hcg : cg = "0" ∨ cg = "5") (hcc : cc = 15 ∨ cc = 20)
    (hsc : s.scoreComputer = 0) (hpgok : PgOK s.playerGesture) :
    (on_voice_input now text cg cc s).1.scoreComputer = 0 ∧
    PgOK (on_voice_input now text cg cc s).1.playerGesture ∧
    ∀ o ∈ (on_voice_input now text cg cc s).2.2.toList,
      o.result ≠ Result.computerWin := by
  unfold on_voice_input
  split
  · exact ⟨by simp [start_game], by simpa [start_game] using hpgok, by simp [start_game]⟩
  · split
    · exact ⟨hsc, hpgok, by simp [exit_game]⟩
    · cases hx : extract_number text with
      | none => exact ⟨hsc, hpgok, by simp⟩
      | some n =>
        dsimp only
        split
        · exact process_round_inv hcg hcc hsc hpgok
        · exact ⟨hsc, hpgok, by simp⟩

theorem auto_inv {now : Nat} {pgC cg : String} {pcC cc : Int} {s : GState}
    (hpgC : pgC = "0" ∨ pgC = "5")
    (hcg : cg = "0" ∨ cg = "5") (hcc : cc = 15 ∨ cc = 20)
    (hsc : s.scoreComputer = 0) (hpgok : PgOK s.playerGesture) :
    (auto_process_round now pgC pcC cg cc s).1.scoreComputer = 0 ∧
    PgOK (auto_process_round now pgC pcC cg cc s).1.playerGesture ∧
    ∀ o ∈ (auto_process_round now pgC pcC cg cc s).2.2.toList,
      o.result ≠ Result.computerWin := by
  unfold auto_process_round
  split
  · exact ⟨hsc, hpgok, by simp⟩
  · by_cases h1 : s.playerGesture = none <;>
      by_cases h2 : s.playerCall = none <;>
        simp only [h1, h2, if_true, if_false, ite_true, ite_false] <;>
      first
        | exact process_round_inv hcg hcc hsc hpgC
        | exact process_round_inv hcg hcc hsc hpgok

theorem mem_gchoices {g : String} (h : g ∈ computer_gesture_choices) :
    g = "0" ∨ g = "5" := by
  simpa [computer_gesture_choices] using h

theorem mem_cchoices {c : Int} (h : c ∈ computer_call_choices) :
    c = 15 ∨ c = 20 := by
  simpa [computer_call_choices] using h

theorem mem_agchoices {g : String} (h : g ∈ auto_fill_gesture_choices) :
    g = "0" ∨ g = "5" := by
  simpa [auto_fill_gesture_choices] using h

theorem stepWorld_inv9 {w : World} {e : Step}
    (hv : validStep w e = true) (h : Inv9 w) : Inv9 (stepWorld w e) := by
  obtain ⟨hsc, hpgok, hout⟩ := h
  cases e with
  | startBtn t =>
    refine ⟨by simp [stepWorld, start_game], ?_, ?_⟩
    · simpa [stepWorld, start_game] using hpgok
    · simpa [stepWorld, start_game] using hout
  | gestureEv t g cg cc =>
    simp only [validStep, validComp, Bool.and_eq_true, decide_eq_true_eq] at hv
    obtain ⟨-, hcg, hcc⟩ := hv
    rcases hgd : on_gesture_detected t g cg cc w.gs with ⟨gs, ts2, oo⟩
    have hinv := @on_gesture_inv t g cg cc w.gs
      (mem_gchoices hcg) (mem_cchoices hcc) hsc hpgok
    rw [hgd] at hinv
    refine ⟨by simpa [stepWorld, hgd] using hinv.1,
      by simpa [stepWorld, hgd] using hinv.2.1, ?_⟩
    intro o ho
    simp only [stepWorld, hgd, List.mem_append] at ho
    rcases ho with ho | ho
    · exact hout o ho
    · exact hinv.2.2 o ho
  | voiceEv t text cg cc =>
    simp only [validStep, validComp, Bool.and_eq_true, decide_eq_true_eq] at hv
    obtain ⟨-, hcg, hcc⟩ := hv
    rcases hvd : on_voice_input t text cg cc w.gs with ⟨gs, ts2, oo⟩
    have hinv := @on_voice_inv t text cg cc w.gs
      (mem_gchoices hcg) (mem_cchoices hcc) hsc hpgok
    rw [hvd] at hinv
    refine ⟨by simpa [stepWorld, hvd] using hinv.1,
      by simpa [stepWorld, hvd] using hinv.2.1, ?_⟩
    intro o ho
    simp only [stepWorld, hvd, List.mem_append] at ho
    rcases ho with ho | ho
    · exact hout o ho
    · exact hinv.2.2 o ho
  | fireTimer i t pgC pcC cg cc =>
    simp only [validStep, validComp, Bool.and_eq_true, decide_eq_true_eq] at hv
    obtain ⟨⟨⟨⟨-, -⟩, hpgC⟩, hpcC⟩, hcg, hcc⟩ := hv
    cases ht : w.timers[i]? with
    | none =>
      exact ⟨by simpa [stepWorld, ht] using hsc,
        by simpa [stepWorld, ht] using hpgok,
        by simpa [stepWorld, ht] using hout⟩
    | some ftcb =>
      obtain ⟨ft, cb⟩ := ftcb
      cases cb with
      | startRound =>
        refine ⟨by simpa [stepWorld, ht, start_round] using hsc, ?_, ?_⟩
        · simp only [stepWorld, ht, start_round]
          trivial
        · simpa [stepWorld, ht, start_round] using hout
      | endGame =>
        exact ⟨by simpa [stepWorld, ht, end_game] using hsc,
          by simpa [stepWorld, ht, end_game] using hpgok,
          by simpa [stepWorld, ht, end_game] using hout⟩
      | autoProcessRound =>
        rcases had : auto_process_round t pgC pcC cg cc w.gs with ⟨gs, ts2, oo⟩
        have hinv := @auto_inv t pgC cg pcC cc w.gs
          (mem_agchoices hpgC) (mem_gchoices hcg) (mem_cchoices hcc) hsc hpgok
        rw [had] at hinv
        refine ⟨by simpa [stepWorld, ht, had] using hinv.1,
          by simpa [stepWorld, ht, had] using hinv.2.1, ?_⟩
        intro o ho
        simp only [stepWorld, ht, had, List.mem_append] at ho
        rcases ho with ho | ho
        · exact hout o ho
        · exact hinv.2.2 o ho
      | processRound =>
        rcases hpd : process_round t cg cc w.gs with ⟨gs, ts2, oo⟩
        have hinv := @process_round_inv t cg cc w.gs
          (mem_gchoices hcg) (mem_cchoices hcc) hsc hpgok
        rw [hpd] at hinv
        refine ⟨by simpa [stepWorld, ht, hpd] using hinv.1,
          by simpa [stepWorld, ht, hpd] using hinv.2.1, ?_⟩
        intro o ho
        simp only [stepWorld, ht, hpd, List.mem_append] at ho
        rcases ho with ho | ho
        · exact hout o ho
        · exact hinv.2.2 o ho

theorem runTrace_inv9 : ∀ (tr : List Step) (w : World),
    validTrace w tr = true → Inv9 w → Inv9 (runTrace w tr) := by
  intro tr
  induction tr with
  | nil => intro w _ h; exact h
  | cons e es ih =>
    intro w hv h
    simp only [validTrace, Bool.and_eq_true] at hv
    exact ih _ hv.2 (stepWorld_inv9 hv.1 h)

theorem inv9_init : Inv9 initWorld := by
  refine ⟨rfl, trivial, ?_⟩
  intro o ho
  simp [initWorld] at ho

/-! ### The vision pipeline's emissions -/

theorem GESTURE_NAME_MAPPING_ok {c g : String}
    (h : GESTURE_NAME_MAPPING c = some g) : g = "0" ∨ g = "5" := by
  unfold GESTURE_NAME_MAPPING at h
  split_ifs at h <;> simp_all

theorem detected_numbers_step (h : String × Nat) (rest : List (String × Nat)) :
    detected_numbers (h :: rest) =
      (if h.2 ≥ GESTURE_CONFIDENCE_THRESHOLD then
        match GESTURE_NAME_MAPPING h.1 with
        | some g => convert_gesture g :: detected_numbers rest
        | none => detected_numbers rest
      else detected_numbers rest) := rfl

theorem detected_numbers_mem :
    ∀ hands : List (String × Nat), ∀ x ∈ detected_numbers hands,
      x = 0 ∨ x = 5 := by
  intro hands
  induction hands with
  | nil => intro x hx; simp [detected_numbers] at hx
  | cons h rest ih =>
    intro x hx
    rw [detected_numbers_step] at hx
    split at hx
    · cases hm : GESTURE_NAME_MAPPING h.1 with
      | none => rw [hm] at hx; exact ih x hx
      | some g =>
        rw [hm] at hx
        rcases List.mem_cons.mp hx with rfl | hx
        · rcases GESTURE_NAME_MAPPING_ok hm with rfl | rfl
          · left; decide
          · right; decide
        · exact ih x hx
    · exact ih x hx

theorem detected_numbers_length :
    ∀ hands : List (String × Nat),
      (detected_numbers hands).length ≤ hands.length := by
  intro hands
  induction hands with
  | nil => simp [detected_numbers]
  | cons h rest ih =>
    rw [detected_numbers_step]
    split
    · cases GESTURE_NAME_MAPPING h.1 <;> simp <;> omega
    · simp; omega

theorem sum_gesture_values :
    ∀ l : List Int, (∀ x ∈ l, x = 0 ∨ x = 5) → l.length ≤ 2 →
      l.sum = 0 ∨ l.sum = 5 ∨ l.sum = 10 := by
  intro l hmem hlen
  rcases l with - | ⟨a, - | ⟨b, - | ⟨c, rest⟩⟩⟩
  · left; rfl
  · rcases hmem a (by simp) with rfl | rfl <;> simp
  · rcases hmem a (by simp) with rfl | rfl <;>
      rcases hmem b (by simp) with rfl | rfl <;> simp
  · simp at hlen

/-- Gesture strings the game handler does not recognise are dropped without
any effect. -/
theorem on_gesture_dropped {now : Nat} {g cg : String} {cc : Int} {s : GState}
    (hm : gesture_mapping g = none) :
    on_gesture_detected now g cg cc s = (s, [], none) := by
  unfold on_gesture_detected
  split
  · rw [hm]
  · rfl

theorem stepWorld_gesture_dropped {w : World} {t : Nat} {g cg : String}
    {cc : Int} (hm : gesture_mapping g = none) :
    stepWorld w (Step.gestureEv t g cg cc) = { w with now := t } := by
  simp [stepWorld, on_gesture_dropped hm]

/-! ## The claims -/

/-- C1: the exactly-once-resolution claim FAILS on the code.  In `tr_c1` the
round opened at t = 3000 is resolved twice: the `round_processed` gate is
checked only by `auto_process_round`, never by `process_round` itself nor by
the gesture/voice handlers, so the gesture event at t = 4800 — arriving after
the round already resolved at t = 4200 and with `round_processed = true` —
runs a second resolution of the same round: two outcomes with
`roundStart = 3000` and two draw-counter increments for one `start_round`. -/
theorem C1_double_resolution :
    validTrace initWorld tr_c1 = true ∧
    (runTrace initWorld (tr_c1.take 4)).outcomes.length = 1 ∧
    (runTrace initWorld (tr_c1.take 4)).gs.roundProcessed = true ∧
    (runTrace initWorld tr_c1).outcomes.map RoundOutcome.roundStart =
      [3000, 3000] ∧
    (runTrace initWorld tr_c1).gs.scoreDraws = 2 := by
  exact ⟨by decide, by decide, by decide, by decide, by decide⟩

/-- C2: for every resolved round, `result = PlayerWin` iff
`playerCall = total ∧ playerCall ≠ computerCall`, `result = ComputerWin` iff
`computerCall = total ∧ playerCall ≠ computerCall`, and `Draw` in every other
case — in particular whenever the two calls are equal. -/
theorem C2_outcome_rule {now : Nat} {cg : String} {cc : Int} {s s' : GState}
    {ts : List (Nat × Cb)} {o : RoundOutcome}
    (h : process_round now cg cc s = (s', ts, some o)) :
    o.total = convert_gesture o.playerGesture +
      convert_gesture o.computerGesture ∧
    (o.result = Result.playerWin ↔
      (o.playerCall = o.total ∧ o.playerCall ≠ o.computerCall)) ∧
    (o.result = Result.computerWin ↔
      (o.computerCall = o.total ∧ o.playerCall ≠ o.computerCall)) ∧
    (o.result = Result.draw ↔
      (¬(o.playerCall = o.total ∧ o.playerCall ≠ o.computerCall) ∧
       ¬(o.computerCall = o.total ∧ o.playerCall ≠ o.computerCall))) ∧
    (o.playerCall = o.computerCall → o.result = Result.draw) := by
  obtain ⟨pg, pc, hpg, hpc, hst, hres⟩ := process_round_some h
  have h3 := congrArg (fun p => p.2.2) hres
  simp only [resolve_outcome, Option.some.injEq] at h3
  subst h3
  simp only [resolve_record]
  have hc := round_result_cases pc cc (convert_gesture pg + convert_gesture cg)
  refine ⟨by trivial, hc.1, hc.2.1, hc.2.2, ?_⟩
  intro heq
  exact hc.2.2.mpr ⟨fun hx => hx.2 heq, fun hx => hx.2 heq⟩

/-- Witness for C2: the round resolved from `s_c2` (player gesture "5",
player call 5, computer gesture "0", computer call 15) is a `PlayerWin`, and
the iff characterisation holds for it. -/
theorem C2_outcome_rule_witness :
    ∃ (s' : GState) (ts : List (Nat × Cb)) (o : RoundOutcome),
      process_round 4000 "0" 15 s_c2 = (s', ts, some o) ∧
      o.result = Result.playerWin ∧
      (o.result = Result.playerWin ↔
        (o.playerCall = o.total ∧ o.playerCall ≠ o.computerCall)) := by
  have h : process_round 4000 "0" 15 s_c2 =
      ((process_round 4000 "0" 15 s_c2).1,
       (process_round 4000 "0" 15 s_c2).2.1,
       some (resolve_record 4000 "0" 15 "5" 5 s_c2)) := by decide
  exact ⟨_, _, _, h, by decide, (C2_outcome_rule h).2.1⟩

/-- C3: resolution never executes before `roundStart + 1s`: every outcome in
any admissible trace has `resolveTime ≥ roundStart + 1000 ms`, and an attempt
with both inputs present that comes earlier is re-armed (for exactly
`roundStart + 1000 ms` when time has not run backwards) rather than
dropped. -/
theorem C3_stillness :
    (∀ tr : List Step, validTrace initWorld tr = true →
      ∀ o ∈ (runTrace initWorld tr).outcomes,
        o.roundStart + 1000 ≤ o.resolveTime) ∧
    (∀ (now : Nat) (cg : String) (cc : Int) (s : GState) (pg : String)
        (pc : Int), s.playerGesture = some pg → s.playerCall = some pc →
      now - s.roundStartTime.getD 0 < 1000 →
      process_round now cg cc s =
        (s, [(now + (1000 - (now - s.roundStartTime.getD 0)),
          Cb.processRound)], none) ∧
      (s.roundStartTime.getD 0 ≤ now →
        now + (1000 - (now - s.roundStartTime.getD 0)) =
          s.roundStartTime.getD 0 + 1000)) := by
  constructor
  · intro tr _ o ho
    refine runTrace_still tr initWorld ?_ o ho
    intro o' ho'
    simp [initWorld] at ho'
  · intro now cg cc s pg pc hpg hpc hst
    exact ⟨process_round_defer hpg hpc hst, fun hle => by omega⟩

/-- Witness for C3: the auto-filled round of `tr_c3` resolves at t = 18000 ≥
3000 + 1000, and an early attempt at t = 3500 on `s_c3e` (round open since
t = 3000) is re-armed for t = 4000 with the state unchanged. -/
theorem C3_stillness_witness :
    (validTrace initWorld tr_c3 = true ∧
      ∀ o ∈ (runTrace initWorld tr_c3).outcomes,
        o.roundStart + 1000 ≤ o.resolveTime) ∧
    process_round 3500 "0" 15 s_c3e =
      (s_c3e, [(4000, Cb.processRound)], none) := by
  refine ⟨⟨by decide, C3_stillness.1 tr_c3 (by decide)⟩, ?_⟩
  exact (C3_stillness.2 3500 "0" 15 s_c3e "0" 3 rfl rfl (by decide)).1

/-- C4: the first-table-match-decides claim FAILS on the code.  The Python
loop has no `else: return None`: a table character whose value is out of
range does not stop the scan.  On "八三" the first table hit is `八` (= 8,
out of range) and the code still returns `3` from the later `三`, while the
extractor described by the spec returns no call. -/
theorem C4_first_match_counterexample :
    extract_number "八三" = some 3 ∧ extract_number_spec "八三" = none := by
  exact ⟨by decide, by decide⟩

/-- C4 (amended): `extract_number` returns the value of the first scanned
character whose table value lies in [0, 5]; table characters with
out-of-range values are skipped and scanning continues.  The spec's examples
`Extract("三") = 3`, `Extract("八") = None`, `Extract("") = None` hold. -/
theorem C4_first_in_range_match :
    (∀ text : String, extract_number text =
      (((preprocess text.data).filterMap cn_num).filter
        (fun n => decide (n ≤ 5))).head?) ∧
    extract_number "三" = some 3 ∧
    extract_number "八" = none ∧
    extract_number "" = none := by
  refine ⟨?_, by decide, by decide, by decide⟩
  intro text
  unfold extract_number
  generalize preprocess text.data = cs
  induction cs with
  | nil => rfl
  | cons c rest ih =>
    simp only [extract_scan, List.filterMap_cons]
    cases hc : cn_num c with
    | none => exact ih
    | some n =>
      by_cases hn : n ≤ 5
      · simp [hn]
      · simp [hn, ih]

/-- C5: the auto-fill draws the player's call from `{15, 20}` — the call
domain of the in-code rules text — but the live voice channel can never
deliver such a value: `extract_number`'s range filter caps accepted values at
5, so `extract_number` never returns 15 or 20, and the utterance `十五`
("fifteen") yields the call 5.  The code's voice filter contradicts the
rules dialog (`语音：喊出数字（15或20）`). -/
theorem C5_call_domain_mismatch :
    auto_fill_call_choices = [15, 20] ∧
    auto_fill_gesture_choices = ["0", "5"] ∧
    (∀ (text : String) (n : Nat), extract_number text = some n → n ≤ 5) ∧
    (∀ text : String, extract_number text ≠ some 15) ∧
    extract_number "十五" = some 5 := by
  refine ⟨rfl, rfl, ?_, ?_, by decide⟩
  · intro text n h
    unfold extract_number at h
    exact extract_scan_le_five _ n h
  · intro text h
    unfold extract_number at h
    have := extract_scan_le_five _ 15 h
    omega

/-- Witness for C5: concrete voice inputs through the range filter. -/
theorem C5_call_domain_mismatch_witness :
    extract_number "三" = some 3 ∧ (3 : Nat) ≤ 5 ∧
    extract_number "三" ≠ some 15 := by
  exact ⟨by decide, C5_call_domain_mismatch.2.2.1 "三" 3 (by decide),
    C5_call_domain_mismatch.2.2.2.1 "三"⟩

/-- C6: the first-accepted-value-is-latched claim FAILS on the code.  In
`tr_c6` the `Fist` at t = 3200 stores gesture "0", and the later `Palm` at
t = 3400 — before any resolution — overwrites it with "5". -/
theorem C6_latch_counterexample :
    validTrace initWorld tr_c6 = true ∧
    (runTrace initWorld (tr_c6.take 3)).gs.playerGesture = some "0" ∧
    (runTrace initWorld tr_c6).gs.playerGesture = some "5" ∧
    (runTrace initWorld tr_c6).outcomes = [] := by
  exact ⟨by decide, by decide, by decide, by decide⟩

/-- C6 (amended): the input channels are not latched — an accepted event
always stores its own value, so the LAST accepted value before resolution
wins on both the gesture and the voice channel. -/
theorem C6_overwrite :
    (∀ (now : Nat) (g ng cg : String) (cc : Int) (s : GState),
      s.state = GameSt.playing → gesture_mapping g = some ng →
      (on_gesture_detected now g cg cc s).1.playerGesture = some ng) ∧
    (∀ (now : Nat) (text cg : String) (cc : Int) (s : GState) (n : Nat),
      s.state = GameSt.playing → strContains text "退出游戏" = false →
      extract_number text = some n →
      (on_voice_input now text cg cc s).1.playerCall = some (n : Int)) := by
  constructor
  · intro now g ng cg cc s hpl hm
    unfold on_gesture_detected
    rw [if_pos hpl, hm]
    dsimp only
    split
    · rw [process_round_playerGesture]
    · rfl
  · intro now text cg cc s n hpl hexit hx
    unfold on_voice_input
    split
    · rename_i hcond
      exfalso
      obtain ⟨hw, -⟩ := hcond
      rw [hpl] at hw
      exact GameSt.noConfusion hw
    · split
      · rename_i hcond2
        rw [hexit] at hcond2
        exact absurd hcond2 (by simp)
      · rw [hx]
        dsimp only
        split
        · rw [process_round_playerCall]
        · rfl

/-- Witness for C6 (amended): a `Palm` overwrites the latched "0" in `s_c6`,
and the utterance `五` overwrites the latched call 3 in `s_c6v`. -/
theorem C6_overwrite_witness :
    (on_gesture_detected 3300 "Palm" "0" 15 s_c6).1.playerGesture =
      some "5" ∧
    (on_voice_input 3300 "五" "0" 15 s_c6v).1.playerCall = some 5 := by
  exact ⟨C6_overwrite.1 3300 "Palm" "5" "0" 15 s_c6 rfl rfl,
    C6_overwrite.2 3300 "五" "0" 15 s_c6v 5 rfl (by decide) (by decide)⟩

/-- C7: the stale-timer claim FAILS on the code.  Timers carry no round tag.
In `tr_c7`, after round 2 opens at t = 6500 the pending timers are round 1's
timeout (armed at t = 3000, due at t = 18000) and round 2's own timeout (due
at t = 21500); firing the stale round-1 timer at t = 18000 is NOT ignored: it
auto-fills round 2's inputs and resolves round 2 (roundStart = 6500) — the
guard `state != PLAYING or round_processed` does not catch it because
`round_processed` was reset when round 2 opened. -/
theorem C7_stale_timer_fires :
    validTrace initWorld tr_c7 = true ∧
    (runTrace initWorld tr_c7_pre).gs.roundStartTime = some 6500 ∧
    (runTrace initWorld tr_c7_pre).gs.roundProcessed = false ∧
    (runTrace initWorld tr_c7_pre).gs.playerGesture = none ∧
    (runTrace initWorld tr_c7_pre).gs.playerCall = none ∧
    (runTrace initWorld tr_c7_pre).timers =
      [(18000, Cb.autoProcessRound), (21500, Cb.autoProcessRound)] ∧
    (runTrace initWorld tr_c7_pre).outcomes.length = 1 ∧
    (runTrace initWorld tr_c7).outcomes.map RoundOutcome.roundStart =
      [3000, 6500] ∧
    (runTrace initWorld tr_c7).gs.roundProcessed = true := by
  refine ⟨by decide, by decide, by decide, by decide, by decide, by decide,
    by decide, by decide, by decide⟩

/-- C8: `validRounds` increments iff the result is not a draw; the
end-of-game pause is scheduled exactly when the updated `validRounds`
reaches `maxRounds`, so with the target 5 the session ends exactly at the
5th non-draw resolution, draws notwithstanding. -/
theorem C8_valid_rounds {now : Nat} {cg : String} {cc : Int} {s s' : GState}
    {ts : List (Nat × Cb)} {o : RoundOutcome}
    (h : process_round now cg cc s = (s', ts, some o)) :
    s'.validRounds =
      s.validRounds + (if o.result = Result.draw then 0 else 1) ∧
    ts = [(now + 2000,
      if s'.validRounds ≥ s'.maxRounds then Cb.endGame else Cb.startRound)] ∧
    s'.maxRounds = s.maxRounds ∧
    (s.maxRounds = 5 → s.validRounds = 4 →
      (ts = [(now + 2000, Cb.endGame)] ↔ o.result ≠ Result.draw)) ∧
    (s.maxRounds = 5 → s.validRounds < 4 →
      ts = [(now + 2000, Cb.startRound)]) := by
  obtain ⟨pg, pc, hpg, hpc, hst, hres⟩ := process_round_some h
  have h1 : (resolve now cg cc pg pc s).1 = s' := by rw [hres]
  have hts : (resolve now cg cc pg pc s).2.1 = ts := by rw [hres]
  have h3 := congrArg (fun p => p.2.2) hres
  simp only [resolve_outcome, Option.some.injEq] at h3
  have hores : o.result =
      round_result pc cc (convert_gesture pg + convert_gesture cg) := by
    rw [← h3]; rfl
  have hvr : s'.validRounds =
      s.validRounds + (if o.result = Result.draw then 0 else 1) := by
    rw [← h1, resolve_validRounds, hores]
  have hmr : s'.maxRounds = s.maxRounds := by rw [← h1, resolve_maxRounds]
  have htseq : ts = [(now + 2000,
      if s'.validRounds ≥ s'.maxRounds then Cb.endGame else Cb.startRound)] := by
    rw [← hts, resolve_timers, h1]
  refine ⟨hvr, htseq, hmr, ?_, ?_⟩
  · intro hm5 hv4
    by_cases hdr : o.result = Result.draw <;>
      simp [htseq, hvr, hdr, hv4, hm5, hmr]
  · intro hm5 hvlt
    have hlt : ¬ (s'.validRounds ≥ s'.maxRounds) := by
      rw [hvr, hmr, hm5]
      split <;> omega
    rw [htseq, if_neg hlt]

/-- Witness for C8: resolving from `s_c8` (validRounds = 4) with a non-draw
result schedules `end_game` and reaches validRounds = 5. -/
theorem C8_valid_rounds_witness :
    ∃ (s' : GState) (ts : List (Nat × Cb)) (o : RoundOutcome),
      process_round 4000 "5" 15 s_c8 = (s', ts, some o) ∧
      s'.validRounds =
        s_c8.validRounds + (if o.result = Result.draw then 0 else 1) ∧
      s'.validRounds = 5 ∧ ts = [(6000, Cb.endGame)] := by
  have h : process_round 4000 "5" 15 s_c8 =
      ((process_round 4000 "5" 15 s_c8).1,
       (process_round 4000 "5" 15 s_c8).2.1,
       some (resolve_record 4000 "5" 15 "5" 10 s_c8)) := by decide
  exact ⟨_, _, _, h, (C8_valid_rounds h).1, by decide, by decide⟩

/-- C9: in every reachable world (admissible trace from the initial world),
the computer's score is 0 and no logged outcome is a `ComputerWin`: the
computer's call is drawn from {15, 20} while the gesture total is always in
{0, 5, 10}. -/
theorem C9_computer_never_wins (tr : List Step)
    (hv : validTrace initWorld tr = true) :
    (runTrace initWorld tr).gs.scoreComputer = 0 ∧
    ∀ o ∈ (runTrace initWorld tr).outcomes,
      o.result ≠ Result.computerWin := by
  have h := runTrace_inv9 tr initWorld hv inv9_init
  exact ⟨h.1, h.2.2⟩

/-- Witness for C9: a full auto-filled round (trace `tr_c9`) resolves with
scoreComputer still 0 and no computer win among its outcomes. -/
theorem C9_computer_never_wins_witness :
    validTrace initWorld tr_c9 = true ∧
    (runTrace initWorld tr_c9).outcomes.length = 1 ∧
    ((runTrace initWorld tr_c9).gs.scoreComputer = 0 ∧
      ∀ o ∈ (runTrace initWorld tr_c9).outcomes,
        o.result ≠ Result.computerWin) := by
  exact ⟨by decide, by decide, C9_computer_never_wins tr_c9 (by decide)⟩

/-- C10: whenever `process_frame` detects accepted gestures (at most two
hands, `num_hands=2`), it emits the decimal numeral of their sum — "0", "5"
or "10" — while `on_gesture_detected` recognises only "Fist" and "Palm";
hence every emission of the wired pipeline is dropped: the handler returns
the state unchanged, and a gesture event only advances the clock, so the
player's gesture can only ever be set by the timeout auto-fill. -/
theorem C10_pipeline_gestures_dropped
    {hands : List (String × Nat)} (hlen : hands.length ≤ 2) {g : String}
    (hg : process_frame_gesture hands = some g) :
    (g = "0" ∨ g = "5" ∨ g = "10") ∧
    gesture_mapping g = none ∧
    (∀ (now : Nat) (cg : String) (cc : Int) (s : GState),
      on_gesture_detected now g cg cc s = (s, [], none)) ∧
    (∀ (w : World) (t : Nat) (cg : String) (cc : Int),
      stepWorld w (Step.gestureEv t g cg cc) = { w with now := t }) := by
  have hsum := sum_gesture_values (detected_numbers hands)
    (detected_numbers_mem hands)
    (le_trans (detected_numbers_length hands) hlen)
  have hgq : g = toString (detected_numbers hands).sum := by
    unfold process_frame_gesture at hg
    split at hg
    · simp at hg
    · simp only [Option.some.injEq] at hg
      exact hg.symm
  have hcase : g = "0" ∨ g = "5" ∨ g = "10" := by
    rcases hsum with h | h | h
    · left; rw [hgq, h]; rfl
    · right; left; rw [hgq, h]; rfl
    · right; right; rw [hgq, h]; rfl
  have hmnone : gesture_mapping g = none := by
    rcases hcase with rfl | rfl | rfl <;> decide
  exact ⟨hcase, hmnone, fun now cg cc s => on_gesture_dropped hmnone,
    fun w t cg cc => stepWorld_gesture_dropped hmnone⟩

/-- Witness for C10: a two-hand frame (fist + palm, confidences 0.9/0.8)
emits "5", which the game handler does not recognise. -/
theorem C10_pipeline_gestures_dropped_witness :
    process_frame_gesture [("Closed_Fist", 900), ("Open_Palm", 800)] =
      some "5" ∧
    gesture_mapping "5" = none := by
  have hg : process_frame_gesture [("Closed_Fist", 900), ("Open_Palm", 800)] =
      some "5" := by decide
  exact ⟨hg, (C10_pipeline_gestures_dropped (by decide) hg).2.1⟩

end FifteenTwenty
